import Mathlib

/-!
Verification of the conway dataset-projection core against its specification.

The Python sources are shallowly embedded:

* a pandas `DataFrame` becomes `Table`: a list of column names plus a list of
  rows, where each row keeps its pandas index label and a list of cells
  (a cell is `Option String`, `none` standing for NaN);
* dictionaries become association lists with Python-dict semantics
  (`dictInsert`: updating an existing key keeps its position, a new key is
  appended); Python sets become duplicate-free lists with membership
  semantics (`setAdd`);
* file-system state is a finite map from path to file content
  (`FileSystem`), a file being either a CSV file (abstracted as the table it
  parses to, or `none` when unparseable) or a workbook with named sheets;
* code that can raise returns `Except`/`Option`; the side effects of
  `DataBaseProjector.project` (persist calls, the skipped-datasets report)
  are collected in the returned `ProjectRun` record.
-/

namespace conway

/-- One row of a tabular payload: `label` is the pandas index label of the
row, `cells` the cell values aligned with the table's column list; a `none`
cell stands for NaN. -/
structure Row where
  label : Nat
  cells : List (Option String)
deriving DecidableEq, Repr

/-- A pandas DataFrame: ordered column names plus rows. -/
structure Table where
  cols : List String
  rows : List Row
deriving DecidableEq, Repr

/-- Modelled from the spec: `Field` (module `conway.dataset.field` is not in
the sources; only its `name` attribute is ever read by
`DataFrameDataSetContent.filter`). -/
structure Field where
  name : String
deriving DecidableEq, Repr

/-- From `conway.dataset.any_of_filter`: a dataset element passes when the
value of `field` is in `allowed_values`. -/
structure AnyOfFilter where
  field : Field
  allowed_values : List String
deriving DecidableEq, Repr

/-- Modelled from the spec: `SliceDefinition` (module
`conway.dataset.slice_definition` is not in the sources; per the spec it is
an ordered collection of filter constraints `filters_to_apply`, each an
`AnyOfFilter`). -/
structure SliceDefinition where
  filters_to_apply : List AnyOfFilter
deriving DecidableEq, Repr

/-- Cell of row `r` at column `c`, looked up through the position of `c` in
`cols` (the embedding of `df[column]` access for one row). -/
def cellAt (cols : List String) (r : Row) (c : String) : Option (Option String) :=
  match cols.findIdx? (fun x => x == c) with
  | some i => r.cells.get? i
  | none => none

/-- The embedding of `filtered_df[column].isin(constraint.allowed_values)`
for one row: a NaN (or missing) cell is never a member. -/
def rowPasses (cols : List String) (constraint : AnyOfFilter) (r : Row) : Bool :=
  match cellAt cols r constraint.field.name with
  | some (some v) => constraint.allowed_values.contains v
  | _ => false

/-- One iteration of the constraint loop in
`DataFrameDataSetContent.filter`: the constraint is applied only when its
column is present in the current frame, otherwise it is a no-op. -/
def applyConstraint (df : Table) (constraint : AnyOfFilter) : Table :=
  if constraint.field.name ∈ df.cols then
    { df with rows := df.rows.filter (fun r => rowPasses df.cols constraint r) }
  else
    df

/-- From `conway.dataset.dataframe_dataset_content`: wraps a DataFrame
payload. -/
structure DataFrameDataSetContent where
  data_df : Table
deriving DecidableEq, Repr

/-- `DataFrameDataSetContent.filter`: starts from a copy of `data_df` and
applies each constraint of the slice definition in order, returning a new
instance. -/
def DataFrameDataSetContent.filter (self : DataFrameDataSetContent)
    (slice_def : SliceDefinition) : DataFrameDataSetContent :=
  ⟨slice_def.filters_to_apply.foldl applyConstraint self.data_df⟩

/-- The conjunction of all applicable constraints of a slice, as a single
row predicate (used to characterise the constraint fold). -/
def slicePred (cols : List String) (constraints : List AnyOfFilter) (r : Row) : Bool :=
  constraints.all (fun c => !(decide (c.field.name ∈ cols)) || rowPasses cols c r)

theorem applyConstraint_cols (df : Table) (c : AnyOfFilter) :
    (applyConstraint df c).cols = df.cols := by
  unfold applyConstraint
  split <;> rfl

theorem foldConstraints_cols (L : List AnyOfFilter) :
    ∀ df : Table, (L.foldl applyConstraint df).cols = df.cols := by
  induction L with
  | nil => intro df; rfl
  | cons c L ih =>
      intro df
      simpa [List.foldl_cons, applyConstraint_cols] using ih (applyConstraint df c)

theorem foldConstraints_eq_filter (L : List AnyOfFilter) :
    ∀ df : Table, L.foldl applyConstraint df
      = ⟨df.cols, df.rows.filter (slicePred df.cols L)⟩ := by
  induction L with
  | nil =>
      intro df
      cases df with
      | mk cols rows =>
          simp only [List.foldl_nil, Table.mk.injEq, true_and]
          rw [List.filter_congr (fun r _ => rfl : ∀ r ∈ rows, slicePred cols [] r = true)]
          exact (List.filter_true rows).symm
  | cons c L ih =>
      intro df
      rw [List.foldl_cons, ih (applyConstraint df c)]
      unfold applyConstraint
      by_cases h : c.field.name ∈ df.cols
      · rw [if_pos h]
        refine congrArg (Table.mk df.cols) ?_
        rw [List.filter_filter]
        apply List.filter_congr
        intro r _
        simp [slicePred, h, Bool.and_comm]
      · rw [if_neg h]
        apply congrArg (Table.mk df.cols)
        apply List.filter_congr
        intro r _
        simp [slicePred, h]

theorem slicePred_filter_applicable (cols : List String) (L : List AnyOfFilter) (r : Row) :
    slicePred cols (L.filter (fun c => decide (c.field.name ∈ cols))) r
      = slicePred cols L r := by
  induction L with
  | nil => rfl
  | cons c L ih =>
      by_cases h : c.field.name ∈ cols
      · simp [slicePred, List.filter_cons, h, List.all_cons] at ih ⊢
      · simp [slicePred, List.filter_cons, h, List.all_cons] at ih ⊢

/-- C5: for every `DataFrameDataSetContent` C and slice definition S,
`C.filter(S)` is pure (it builds a new instance from a copy of the payload,
so C itself is untouched — immediate in this functional embedding) and:
the result's column list is unchanged, its rows are a subset of C's rows,
constraints are ANDed with any constraint whose field is absent from C
being a no-op for that constraint only (dropping the inapplicable
constraints gives the same result), and filtering is idempotent:
`C.filter(S).filter(S) = C.filter(S)`. -/
theorem dataFrameDataSetContent_filter_pure_idempotent
    (C : DataFrameDataSetContent) (S : SliceDefinition) :
    (C.filter S).data_df.cols = C.data_df.cols
    ∧ (C.filter S).data_df.rows ⊆ C.data_df.rows
    ∧ (C.filter S).filter S = C.filter S
    ∧ C.filter S
        = C.filter ⟨S.filters_to_apply.filter
            (fun c => decide (c.field.name ∈ C.data_df.cols))⟩ := by
  refine ⟨?_, ?_, ?_, ?_⟩
  · exact foldConstraints_cols S.filters_to_apply C.data_df
  · show (DataFrameDataSetContent.filter C S).data_df.rows ⊆ C.data_df.rows
    unfold DataFrameDataSetContent.filter
    rw [foldConstraints_eq_filter]
    exact (List.filter_sublist C.data_df.rows).subset
  · show DataFrameDataSetContent.filter (DataFrameDataSetContent.filter C S) S
        = DataFrameDataSetContent.filter C S
    unfold DataFrameDataSetContent.filter
    rw [foldConstraints_eq_filter, foldConstraints_eq_filter]
    simp only
    refine congrArg (fun l => DataFrameDataSetContent.mk (Table.mk C.data_df.cols l)) ?_
    rw [List.filter_filter]
    apply List.filter_congr
    intro r _
    exact Bool.and_self _
  · show DataFrameDataSetContent.filter C S = _
    unfold DataFrameDataSetContent.filter
    rw [foldConstraints_eq_filter, foldConstraints_eq_filter]
    refine congrArg (fun l => DataFrameDataSetContent.mk (Table.mk C.data_df.cols l)) ?_
    refine (List.filter_congr ?_).symm
    intro r _
    exact slicePred_filter_applicable C.data_df.cols S.filters_to_apply r

/-- Python-dict assignment `d[k] = v`: an existing key keeps its position
and gets the new value, a new key is appended. -/
def dictInsert {α : Type} (d : List (String × α)) (k : String) (v : α) :
    List (String × α) :=
  if d.any (fun kv => kv.1 == k) then
    d.map (fun kv => if kv.1 == k then (k, v) else kv)
  else
    d ++ [(k, v)]

/-- Python-dict read `d[k]` / `d.get(k)`: the value at the key. -/
def dictLookup {α : Type} (d : List (String × α)) (k : String) : Option α :=
  match d.find? (fun kv => kv.1 == k) with
  | some kv => some kv.2
  | none => none

/-- Python-set `s.add(x)`: duplicate-free list with membership semantics. -/
def setAdd (s : List String) (x : String) : List String :=
  if s.contains x then s else s ++ [x]

/-- `FirstFoundSampler.generate_sample` with `sample_size` from the
constructor: for every key of the input mapping, the value becomes
`full_df[:sample_size]` — the first rows in position, keeping their pandas
index labels and the column list. -/
def FirstFoundSampler.generate_sample (sample_size : Nat)
    (raw_data_dict : List (String × Table)) : List (String × Table) :=
  raw_data_dict.foldl
    (fun sample_data_dict kv =>
      dictInsert sample_data_dict kv.1 ⟨kv.2.cols, kv.2.rows.take sample_size⟩)
    []

/-- C6 counter-evidence: `FirstFoundSampler.generate_sample` slices with
`full_df[:sample_size]` and never re-indexes, so the output keeps the
input's index labels. On a 10-row table whose index labels are 5..14,
`FirstFoundSampler(sample_size=3)` returns rows labelled `[5, 6, 7]`, not
the fresh contiguous `[0, 1, 2]` required by the claim and by the
`Sampler.generate_sample` docstring ("The row index of `sample_K_df` is a
range 0,1,2,.."). -/
theorem firstFoundSampler_keeps_original_index :
    (FirstFoundSampler.generate_sample 3
        [("k", ⟨["c"], (List.range 10).map (fun i => ⟨5 + i, [some "v"]⟩)⟩)]).map
        (fun kv => (kv.1, kv.2.rows.map Row.label))
      = [("k", [5, 6, 7])]
    ∧ ([5, 6, 7] : List Nat) ≠ [0, 1, 2] := by
  refine ⟨by decide, by decide⟩

/-- From `conway.database.single_root_data_hub`: the two `DataHubHandle`
variants, `RelativeDataHubHandle` (constructor `relative`) and
`AbsoluteDataHubHandle` (constructor `absolute`). -/
inductive DataHubHandle where
  | relative (db_root_folder relative_path : String)
  | absolute (hub_root_folder : String)
deriving DecidableEq, Repr

/-- `hub_root` of each `DataHubHandle` variant. -/
def DataHubHandle.hub_root : DataHubHandle → String
  | .relative db_root_folder relative_path => db_root_folder ++ "/" ++ relative_path
  | .absolute hub_root_folder => hub_root_folder

/-- `snapshot_handle`: a new handle of the same class with the root folder
changed to the given `snapshot_root_folder`. -/
def DataHubHandle.snapshot_handle : DataHubHandle → String → DataHubHandle
  | .relative _ relative_path, snapshot_root_folder =>
      .relative snapshot_root_folder relative_path
  | .absolute _, snapshot_root_folder => .absolute snapshot_root_folder

/-- C8: `snapshot_handle(r)` is pure (the receiver is a value in this
embedding, so it is never mutated) and returns a handle of the same
variant: for a relative handle the result is again relative with the
original `relative_path` kept, so its `hub_root()` is
`r + "/" + relative_path`; for an absolute handle the result is again
absolute with the whole root replaced, so its `hub_root()` is `r`. -/
theorem dataHubHandle_snapshot_handle_spec (db rel a r : String) :
    (DataHubHandle.relative db rel).snapshot_handle r = .relative r rel
    ∧ ((DataHubHandle.relative db rel).snapshot_handle r).hub_root = r ++ "/" ++ rel
    ∧ (DataHubHandle.absolute a).snapshot_handle r = .absolute r
    ∧ ((DataHubHandle.absolute a).snapshot_handle r).hub_root = r :=
  ⟨rfl, rfl, rfl, rfl⟩

/-- Content of one stored file: a CSV file is abstracted as the table it
parses to (`none` when the parse raises), a workbook as its named sheets. -/
inductive FileContent where
  | csvFile (parsed : Option Table)
  | excelFile (sheets : List (String × Table))
deriving DecidableEq, Repr

/-- The file-system state a `DataAccessor` runs against. -/
structure FileSystem where
  entries : List (String × FileContent)
deriving DecidableEq, Repr

/-- File content stored at a path, if any. -/
def FileSystem.lookup (fs : FileSystem) (path : String) : Option FileContent :=
  match fs.entries.find? (fun kv => kv.1 == path) with
  | some kv => some kv.2
  | none => none

/-- `Path(path).exists()`. -/
def FileSystem.exists_at (fs : FileSystem) (path : String) : Bool :=
  (fs.lookup path).isSome

/-- Python `s.endswith(t)`. -/
def pyEndsWith (s t : String) : Bool :=
  s.data.reverse.take t.data.length == t.data.reverse

/-- Python `s[:-n]`. -/
def pyDropRight (s : String) (n : Nat) : String :=
  ⟨s.data.take (s.data.length - n)⟩

/-- `DataAccessor._url_to_csv`: the CSV-equivalent filename of a dataset
url. Note the source computes `some_url[:-4] + ".csv"` for an `.xlsx` url,
which drops only the four characters `xlsx` and keeps the dot. -/
def DataAccessor.url_to_csv (some_url : String) : String :=
  if pyEndsWith some_url ".xlsx" then pyDropRight some_url 4 ++ ".csv"
  else if pyEndsWith some_url ".csv" then some_url
  else some_url ++ ".csv"

/-- `DataAccessor._retrieve_csv`: loads the CSV-equivalent of `url` when
that file exists and parses; a missing file or a caught load error yields
`None` unless `fail_if_not_found`. -/
def DataAccessor.retrieve_csv (fs : FileSystem) (url : String)
    (fail_if_not_found : Bool) : Except String (Option Table) :=
  let csv_path := DataAccessor.url_to_csv url
  match fs.lookup csv_path with
  | none =>
      if fail_if_not_found then
        .error ("Dataset '" ++ csv_path ++ "' does not exist")
      else
        .ok none
  | some (.csvFile (some result_df)) => .ok (some result_df)
  | some (.csvFile none) =>
      if fail_if_not_found then
        .error ("Unable to retreive " ++ csv_path)
      else
        .ok none
  | some (.excelFile _) =>
      if fail_if_not_found then
        .error ("Unable to retreive " ++ csv_path)
      else
        .ok none

/-- The worksheet loop of `DataAccessor._retrieve_excel`: try each sheet in
order, skipping a worksheet-not-found error, stopping at first success. -/
def DataAccessor.firstSheet (sheets : List (String × Table)) :
    List String → Option Table
  | [] => none
  | sheet :: rest =>
      match dictLookup sheets sheet with
      | some result_df => some result_df
      | none => DataAccessor.firstSheet sheets rest

/-- `DataAccessor._retrieve_excel`: loads `url` as a workbook, searching
the worksheet named `subpath` (default `"Sheet1"`) then each of
`alternative_subpaths`, in order. Reading non-workbook content raises. -/
def DataAccessor.retrieve_excel (fs : FileSystem) (url : String)
    (subpath : Option String) (alternative_subpaths : List String)
    (fail_if_not_found : Bool) : Except String (Option Table) :=
  if fs.exists_at url = false then
    if fail_if_not_found then
      .error ("Dataset '" ++ url ++ "' does not exist")
    else
      .ok none
  else
    match fs.lookup url with
    | some (.excelFile sheets) =>
        let sheet_name := subpath.getD "Sheet1"
        match DataAccessor.firstSheet sheets (sheet_name :: alternative_subpaths) with
        | some result_df => .ok (some result_df)
        | none =>
            if fail_if_not_found then
              .error ("Dataset " ++ url ++ " either does not exist or if it does then it doesn't any worksheet tried")
            else
              .ok none
    | _ => .error ("Unable to read workbook at " ++ url)

/-- `DataAccessor.retrieve`: first attempts the CSV equivalent of `url`
(with `fail_if_not_found=False`), and only when that yields `None` falls
back to the workbook format; a final check re-raises when nothing was found
and `fail_if_not_found` is set. -/
def DataAccessor.retrieve (fs : FileSystem) (url : String)
    (subpath : Option String) (alternative_subpaths : List String)
    (fail_if_not_found : Bool) : Except String (Option Table) :=
  match DataAccessor.retrieve_csv fs url false with
  | .error e => .error e
  | .ok (some result_df) => .ok (some result_df)
  | .ok none =>
      match DataAccessor.retrieve_excel fs url subpath alternative_subpaths
          fail_if_not_found with
      | .error e => .error e
      | .ok result_df =>
          if result_df.isNone && fail_if_not_found then
            .error ("Dataset " ++ url ++ " either does not exist or if it does then it doesn't any worksheet tried")
          else
            .ok result_df

/-- C3 counter-evidence: `_url_to_csv` maps `dataset.xlsx` to
`dataset..csv` (the slice `some_url[:-4]` keeps the dot), not to the
`dataset.csv` stated by the claim and by the method's own docstring. So
when the lightweight counterpart actually sits at `dataset.csv`, `retrieve`
ignores it and loads the workbook; the CSV is preferred only when it sits
at the code's derived path `dataset..csv`. -/
theorem dataAccessor_url_to_csv_keeps_dot :
    DataAccessor.url_to_csv "C:/foo/bar/dataset.xlsx" = "C:/foo/bar/dataset..csv"
    ∧ DataAccessor.url_to_csv "C:/foo/bar/dataset.xlsx" ≠ "C:/foo/bar/dataset.csv"
    ∧ DataAccessor.retrieve
        ⟨[("dataset.csv", .csvFile (some ⟨["a"], [⟨0, [some "fromCsv"]⟩]⟩)),
          ("dataset.xlsx", .excelFile [("Sheet1", ⟨["a"], [⟨0, [some "fromXlsx"]⟩]⟩)])]⟩
        "dataset.xlsx" none [] false
      = .ok (some ⟨["a"], [⟨0, [some "fromXlsx"]⟩]⟩)
    ∧ DataAccessor.retrieve
        ⟨[("dataset..csv", .csvFile (some ⟨["a"], [⟨0, [some "fromCsv"]⟩]⟩)),
          ("dataset.xlsx", .excelFile [("Sheet1", ⟨["a"], [⟨0, [some "fromXlsx"]⟩]⟩)])]⟩
        "dataset.xlsx" none [] false
      = .ok (some ⟨["a"], [⟨0, [some "fromCsv"]⟩]⟩) := by
  refine ⟨by decide, by decide, by rfl, by rfl⟩

/-- A Python exception value reaching `DataAccessor.__exit__`. -/
inductive PyExc where
  | permissionError (msg : String)
  | valueError (msg : String)
  | otherError (msg : String)
deriving DecidableEq, Repr

/-- What leaves the `with DataAccessor(...)` block:
nothing, a raised exception, or the `TypeError` Python raises when
`__exit__` concatenates a string with `self.ACTION` while that is `None`. -/
inductive ExitOutcome where
  | silent
  | raised (e : PyExc)
  | typeErrorNoneConcat
deriving DecidableEq, Repr

/-- The `DataAccessor` fields relevant to the scoped-acquisition contract:
`ACTION` must be populated by the specific action methods and is used for
error-message context. -/
structure DataAccessorState where
  url : String
  subpath : Option String
  ACTION : Option String
deriving DecidableEq, Repr

/-- `DataAccessor.__init__`: `ACTION` starts as `None`. -/
def DataAccessor.init (url : String) (subpath : Option String) : DataAccessorState :=
  ⟨url, subpath, none⟩

/-- `retrieve` sets `self.ACTION = "retrieve"`. -/
def DataAccessor.after_retrieve (s : DataAccessorState) : DataAccessorState :=
  { s with ACTION := some "retrieve" }

/-- `remove` sets `self.ACTION = "remove"`. -/
def DataAccessor.after_remove (s : DataAccessorState) : DataAccessorState :=
  { s with ACTION := some "remove" }

/-- `copy_from` sets `self.ACTION = "copy"`. -/
def DataAccessor.after_copy_from (s : DataAccessorState) : DataAccessorState :=
  { s with ACTION := some "copy" }

/-- `persist` never assigns `self.ACTION` (source lines 185-193), so the
state is unchanged. -/
def DataAccessor.after_persist (s : DataAccessorState) : DataAccessorState :=
  s

/-- `DataAccessor.__exit__`: a `PermissionError` is translated into a
`ValueError` whose message is built by concatenating `self.url` and
`self.ACTION`; when `ACTION` is still `None` that concatenation itself
raises `TypeError`. Any other exception propagates unchanged; a clean exit
raises nothing. -/
def DataAccessor.exit (s : DataAccessorState) (exc_value : Option PyExc) : ExitOutcome :=
  match exc_value with
  | some (.permissionError _) =>
      match s.ACTION with
      | some a =>
          .raised (.valueError
            ("Please close file(s) under " ++ s.url ++ " so system can " ++ a
              ++ " it. Thanks."))
      | none => .typeErrorNoneConcat
  | some e => .raised e
  | none => .silent

/-- C7 counter-evidence: the translation of a permission failure works for
`retrieve`/`remove`/`copy` (which set `ACTION`), other exceptions propagate
unchanged and a clean exit is silent — but `persist` never sets `ACTION`,
so a `PermissionError` during a scoped persist makes `__exit__` concatenate
a string with `None` and die with `TypeError` instead of the descriptive
error naming the url and the action "persist". -/
theorem dataAccessor_exit_persist_loses_action :
    DataAccessor.exit (DataAccessor.after_remove (DataAccessor.init "f.xlsx" none))
        (some (.permissionError "locked"))
      = .raised (.valueError
          "Please close file(s) under f.xlsx so system can remove it. Thanks.")
    ∧ DataAccessor.exit (DataAccessor.after_retrieve (DataAccessor.init "f.xlsx" none))
        (some (.permissionError "locked"))
      = .raised (.valueError
          "Please close file(s) under f.xlsx so system can retrieve it. Thanks.")
    ∧ DataAccessor.exit (DataAccessor.after_copy_from (DataAccessor.init "f.xlsx" none))
        (some (.permissionError "locked"))
      = .raised (.valueError
          "Please close file(s) under f.xlsx so system can copy it. Thanks.")
    ∧ DataAccessor.exit (DataAccessor.after_remove (DataAccessor.init "f.xlsx" none))
        (some (.otherError "boom"))
      = .raised (.otherError "boom")
    ∧ DataAccessor.exit (DataAccessor.after_remove (DataAccessor.init "f.xlsx" none)) none
      = .silent
    ∧ DataAccessor.exit
        (DataAccessor.after_persist (DataAccessor.init "f.xlsx" (some "Sheet1")))
        (some (.permissionError "locked"))
      = .typeErrorNoneConcat := by
  refine ⟨by decide, by decide, by decide, by decide, by decide, by decide⟩

/-- From `conway.database.single_root_data_hub`: a concrete hub is a name
plus a handle resolving its root. -/
structure SingleRootDataHub where
  name : String
  hub_handle : DataHubHandle
deriving DecidableEq, Repr

/-- `SingleRootDataHub.hub_root` delegates to the handle. -/
def SingleRootDataHub.hub_root (hub : SingleRootDataHub) : String :=
  hub.hub_handle.hub_root

/-- From `conway.dataset.dataset_identity`: the abstract methods
`path_within_hub()` and `subpaths()` become data fields (each concrete
identity supplies fixed values for them). -/
structure DataSetIdentity where
  name : String
  path_within_hub : String
  subpaths : List String
deriving DecidableEq, Repr

/-- Helper class `_DataSetInfo` of `conway.projector.database_projector`. -/
structure DataSetInfo where
  hub_name : String
  hub_handle : DataHubHandle
  sheet : String
  data_df : Table
deriving DecidableEq, Repr

/-- `DataBaseProjector`: `datasets_in_scope` and `target_size` from the
constructor; the abstract `projection_filter()` and the overridable
`must_save_even_if_empty` become fields supplied by the concrete subclass. -/
structure DataBaseProjector where
  datasets_in_scope : List DataSetIdentity
  target_size : Nat
  projection_filter : SliceDefinition
  must_save_even_if_empty : String → Bool

/-- The default implementation of
`DataBaseProjector.must_save_even_if_empty`: always `False`. -/
def DataBaseProjector.must_save_even_if_empty_default (_relative_url : String) : Bool :=
  false

/-- An exception aborting `DataBaseProjector.project`. -/
inductive ProjErr where
  | concatEmpty (url : String)
  | retrieveError (msg : String)
  | assertionError
deriving DecidableEq, Repr

/-- Column-realignment step of `pandas.concat`: a row is re-expressed over
the union column list, missing columns becoming NaN. -/
def realignRow (oldCols newCols : List String) (r : Row) : Row :=
  ⟨r.label, newCols.map (fun c =>
    match oldCols.findIdx? (fun x => x == c) with
    | some i => (r.cells.get? i).join
    | none => none)⟩

/-- Binary step of `pandas.concat`: columns are the union in order of first
appearance, rows are stacked keeping their index labels. -/
def concatTwo (a b : Table) : Table :=
  let cols := a.cols ++ b.cols.filter (fun c => !(a.cols.contains c))
  ⟨cols, a.rows.map (realignRow a.cols cols) ++ b.rows.map (realignRow b.cols cols)⟩

/-- `pandas.concat(df_list)`: raises `ValueError` on an empty list. -/
def pdConcat (url : String) : List Table → Except ProjErr Table
  | [] => .error (.concatEmpty url)
  | df :: rest => .ok (rest.foldl concatTwo df)

/-- The inner subpath loop of the load phase: retrieve each subpath via a
`DataAccessor` and collect the non-null fragments; an exception escaping
`retrieve` propagates. -/
def collectFragments (fs : FileSystem) (full_url : String) :
    List String → Except ProjErr (List Table)
  | [] => .ok []
  | subpath :: rest =>
      match DataAccessor.retrieve fs full_url (some subpath) [] false with
      | .error e => .error (.retrieveError e)
      | .ok none => collectFragments fs full_url rest
      | .ok (some sub_df) =>
          match collectFragments fs full_url rest with
          | .error e => .error e
          | .ok df_list => .ok (sub_df :: df_list)

/-- The phase-local accumulation state of the load phase of
`DataBaseProjector.project`. -/
structure LoadAcc where
  stats_input_relative_paths : List String
  stats_input_nb_rows : List Nat
  stats_input_nb_columns : List Nat
  nb_loaded : Nat
  source_data_dict : List (String × DataSetInfo)
  skipped_datasets : List (String × List String)
  all_dataset_rel_urls_s : List String
deriving Repr

/-- The empty accumulation state at the start of `project`. -/
def LoadAcc.initial : LoadAcc := ⟨[], [], [], 0, [], [], []⟩

instance : Inhabited LoadAcc := ⟨LoadAcc.initial⟩

/-- One iteration of the inner dataset loop of the load phase: record the
relative url, skip the dataset when its full url does not exist in this
hub, otherwise load and concatenate the subpath fragments, store the result
in `source_data_dict` and append the input statistics. -/
def loadOneDataset (fs : FileSystem) (hub : SingleRootDataHub)
    (dataset_id : DataSetIdentity) (acc : LoadAcc) (skipped_by_hub : List String) :
    Except ProjErr (LoadAcc × List String) :=
  let relative_url := dataset_id.path_within_hub
  let acc := { acc with
    all_dataset_rel_urls_s := setAdd acc.all_dataset_rel_urls_s relative_url }
  let subpath_l := dataset_id.subpaths
  let full_url := hub.hub_root ++ "/" ++ relative_url
  if fs.exists_at full_url = false then
    .ok (acc, setAdd skipped_by_hub relative_url)
  else
    match collectFragments fs full_url subpath_l with
    | .error e => .error e
    | .ok df_list =>
        match pdConcat full_url df_list with
        | .error e => .error e
        | .ok data_df =>
            .ok ({ acc with
              source_data_dict := dictInsert acc.source_data_dict relative_url
                ⟨hub.name, hub.hub_handle, subpath_l.headD "", data_df⟩,
              stats_input_relative_paths :=
                acc.stats_input_relative_paths ++ [relative_url],
              stats_input_nb_rows :=
                acc.stats_input_nb_rows ++ [data_df.rows.length],
              stats_input_nb_columns :=
                acc.stats_input_nb_columns ++ [data_df.cols.length],
              nb_loaded := acc.nb_loaded + 1 }, skipped_by_hub)

/-- The inner dataset loop of the load phase over one hub. -/
def loadDatasets (fs : FileSystem) (hub : SingleRootDataHub) :
    List DataSetIdentity → LoadAcc → List String →
    Except ProjErr (LoadAcc × List String)
  | [], acc, skipped_by_hub => .ok (acc, skipped_by_hub)
  | dataset_id :: rest, acc, skipped_by_hub =>
      match loadOneDataset fs hub dataset_id acc skipped_by_hub with
      | .error e => .error e
      | .ok (acc2, skipped2) => loadDatasets fs hub rest acc2 skipped2

/-- The outer hub loop of the load phase: each hub starts with an empty
skipped set which is stored under the hub's name when the hub is done. -/
def loadHubs (fs : FileSystem) (scope : List DataSetIdentity) :
    List SingleRootDataHub → LoadAcc → Except ProjErr LoadAcc
  | [], acc => .ok acc
  | hub :: rest, acc =>
      match loadDatasets fs hub scope acc [] with
      | .error e => .error e
      | .ok (acc2, skipped_by_hub) =>
          loadHubs fs scope rest
            { acc2 with skipped_datasets :=
                dictInsert acc2.skipped_datasets hub.name skipped_by_hub }

/-- Step 1 of `DataBaseProjector.project` over the input manifest's hubs. -/
def loadPhase (P : DataBaseProjector) (fs : FileSystem)
    (input_hubs : List SingleRootDataHub) : Except ProjErr LoadAcc :=
  loadHubs fs P.datasets_in_scope input_hubs LoadAcc.initial

/-- The skipped-datasets reconciliation after the load loop: only when
`nb_loaded < nb_in_scope` is the intersection of the per-hub skipped sets
computed (starting from the set of all relative urls); otherwise the
reported set is empty. -/
def mkSkippedReport (nb_in_scope : Nat) (acc : LoadAcc) : List String :=
  if acc.nb_loaded < nb_in_scope then
    acc.skipped_datasets.foldl
      (fun s kv => s.filter (fun u => kv.2.contains u))
      acc.all_dataset_rel_urls_s
  else
    []

/-- The phase-local accumulation state of the projection phase. -/
structure ProjAcc where
  projected_data_dict : List (String × DataSetInfo)
  stats_output_relative_paths : List String
  stats_output_nb_rows : List Nat
  stats_output_nb_columns : List Nat
deriving Repr

/-- The empty projection accumulation state. -/
def ProjAcc.initial : ProjAcc := ⟨[], [], [], []⟩

/-- The inner loop of the projection phase for one output hub: datasets
loaded from a hub of a different name are left for that hub's turn; the
others are filtered through `projection_filter()` and remembered with the
output hub's handle and the original sheet. -/
def projectDatasets (P : DataBaseProjector) (projected_hub : SingleRootDataHub) :
    List (String × DataSetInfo) → ProjAcc → ProjAcc
  | [], acc => acc
  | (relative_url, data_info) :: rest, acc =>
      if projected_hub.name ≠ data_info.hub_name then
        projectDatasets P projected_hub rest acc
      else
        let projected_content :=
          (DataFrameDataSetContent.mk data_info.data_df).filter P.projection_filter
        let projected_df := projected_content.data_df
        projectDatasets P projected_hub rest
          { acc with
            projected_data_dict := dictInsert acc.projected_data_dict relative_url
              ⟨projected_hub.name, projected_hub.hub_handle, data_info.sheet,
                projected_df⟩,
            stats_output_relative_paths :=
              acc.stats_output_relative_paths ++ [relative_url],
            stats_output_nb_rows :=
              acc.stats_output_nb_rows ++ [projected_df.rows.length],
            stats_output_nb_columns :=
              acc.stats_output_nb_columns ++ [projected_df.cols.length] }

/-- Step 2 of `DataBaseProjector.project` over the output manifest's hubs. -/
def projectHubs (P : DataBaseProjector) (source_data_dict : List (String × DataSetInfo)) :
    List SingleRootDataHub → ProjAcc → ProjAcc
  | [], acc => acc
  | projected_hub :: rest, acc =>
      projectHubs P source_data_dict rest
        (projectDatasets P projected_hub source_data_dict acc)

/-- One `DataAccessor(url, subpath).persist(data_df)` call made by the save
phase. -/
structure SaveCall where
  url : String
  sheet : String
  data_df : Table
deriving DecidableEq, Repr

/-- Step 3 of `DataBaseProjector.project`: persist every projected dataset
to `hub_handle.hub_root() + "/" + relative_url` under the remembered sheet,
skipping empty tables unless `must_save_even_if_empty` says otherwise. -/
def savePhase (P : DataBaseProjector) :
    List (String × DataSetInfo) → List SaveCall
  | [] => []
  | (relative_url, projected_info) :: rest =>
      if projected_info.data_df.rows.length = 0
          ∧ ¬ P.must_save_even_if_empty relative_url = true then
        savePhase P rest
      else
        ⟨projected_info.hub_handle.hub_root ++ "/" ++ relative_url,
          projected_info.sheet, projected_info.data_df⟩ :: savePhase P rest

/-- One column of the returned statistics DataFrame. -/
inductive StatsCol where
  | strs (cells : List String)
  | nats (cells : List Nat)
deriving DecidableEq, Repr

/-- The statistics DataFrame built at the end of `project`. -/
def mkStatsDf (paths : List String) (in_rows in_cols out_rows out_cols : List Nat) :
    List (String × StatsCol) :=
  [("Relative url", .strs paths),
   ("Input nb rows", .nats in_rows),
   ("Input nb columns", .nats in_cols),
   ("Output nb rows", .nats out_rows),
   ("Output nb columns", .nats out_cols)]

/-- One run of `DataBaseProjector.project`: the persist calls made, the
skipped-by-all-hubs report emitted (via the log) after the load phase, and
either the returned statistics DataFrame or the exception raised. -/
structure ProjectRun where
  saves : List SaveCall
  skippedReport : List String
  result : Except ProjErr (List (String × StatsCol))
deriving Repr

/-- `DataBaseProjector.project(input_db, output_db)`: the three phases in
order, the saves happening before the final `assert
stats_input_relative_paths == stats_output_relative_paths`; when that
assertion fails the run raises `AssertionError` instead of returning the
statistics table. -/
def DataBaseProjector.project (P : DataBaseProjector) (fs : FileSystem)
    (input_hubs output_hubs : List SingleRootDataHub) : ProjectRun :=
  match loadPhase P fs input_hubs with
  | .error e => ⟨[], [], .error e⟩
  | .ok acc =>
      let report := mkSkippedReport P.datasets_in_scope.length acc
      let pacc := projectHubs P acc.source_data_dict output_hubs ProjAcc.initial
      let saves := savePhase P pacc.projected_data_dict
      if acc.stats_input_relative_paths = pacc.stats_output_relative_paths then
        ⟨saves, report,
          .ok (mkStatsDf acc.stats_input_relative_paths acc.stats_input_nb_rows
            acc.stats_input_nb_columns pacc.stats_output_nb_rows
            pacc.stats_output_nb_columns)⟩
      else
        ⟨saves, report, .error .assertionError⟩

/-- C2: when `project` returns (instead of raising), the returned
statistics table has exactly the five columns `Relative url`,
`Input nb rows`, `Input nb columns`, `Output nb rows`, `Output nb columns`,
its `Relative url` column is the load-order list of input relative paths
(one entry per processed dataset), and that sequence is identical to the
output-statistics ordering — the alignment enforced by the assertion before
the return. -/
theorem databaseProjector_stats_alignment
    (P : DataBaseProjector) (fs : FileSystem)
    (input_hubs output_hubs : List SingleRootDataHub)
    (df : List (String × StatsCol))
    (hok : (P.project fs input_hubs output_hubs).result = .ok df) :
    df.map Prod.fst = ["Relative url", "Input nb rows", "Input nb columns",
      "Output nb rows", "Output nb columns"]
    ∧ ∃ acc, loadPhase P fs input_hubs = .ok acc
        ∧ dictLookup df "Relative url" = some (.strs acc.stats_input_relative_paths)
        ∧ acc.stats_input_relative_paths
            = (projectHubs P acc.source_data_dict output_hubs
                ProjAcc.initial).stats_output_relative_paths
        ∧ df = mkStatsDf acc.stats_input_relative_paths acc.stats_input_nb_rows
            acc.stats_input_nb_columns
            (projectHubs P acc.source_data_dict output_hubs
              ProjAcc.initial).stats_output_nb_rows
            (projectHubs P acc.source_data_dict output_hubs
              ProjAcc.initial).stats_output_nb_columns := by
  unfold DataBaseProjector.project at hok
  cases hload : loadPhase P fs input_hubs with
  | error e =>
      rw [hload] at hok
      exact absurd hok (by simp)
  | ok acc =>
      rw [hload] at hok
      simp only at hok
      by_cases heq : acc.stats_input_relative_paths
          = (projectHubs P acc.source_data_dict output_hubs
              ProjAcc.initial).stats_output_relative_paths
      · rw [if_pos heq] at hok
        simp only [Except.ok.injEq] at hok
        refine ⟨?_, acc, rfl, ?_, heq, hok.symm⟩
        · rw [← hok]; rfl
        · rw [← hok]; rfl
      · rw [if_neg heq] at hok
        exact absurd hok (by simp)

/-- Concrete single-dataset run used to exercise the statistics-alignment
theorem. -/
def c2Table : Table := ⟨["a"], [⟨0, [some "x"]⟩, ⟨1, [some "y"]⟩]⟩

/-- File system of the concrete run: one workbook in hub root `r1`. -/
def c2Fs : FileSystem := ⟨[("r1/data.xlsx", .excelFile [("Sheet1", c2Table)])]⟩

/-- Projector of the concrete run: one dataset in scope, empty slice. -/
def c2P : DataBaseProjector :=
  ⟨[⟨"d", "data.xlsx", ["Sheet1"]⟩], 5, ⟨[]⟩,
    DataBaseProjector.must_save_even_if_empty_default⟩

/-- The statistics table returned by the concrete run. -/
def c2Df : List (String × StatsCol) := mkStatsDf ["data.xlsx"] [2] [1] [2] [1]

theorem databaseProjector_stats_alignment_witness :
    c2Df.map Prod.fst = ["Relative url", "Input nb rows", "Input nb columns",
      "Output nb rows", "Output nb columns"]
    ∧ ∃ acc, loadPhase c2P c2Fs [⟨"hub1", .absolute "r1"⟩] = .ok acc
        ∧ dictLookup c2Df "Relative url" = some (.strs acc.stats_input_relative_paths)
        ∧ acc.stats_input_relative_paths
            = (projectHubs c2P acc.source_data_dict [⟨"hub1", .absolute "o1"⟩]
                ProjAcc.initial).stats_output_relative_paths
        ∧ c2Df = mkStatsDf acc.stats_input_relative_paths acc.stats_input_nb_rows
            acc.stats_input_nb_columns
            (projectHubs c2P acc.source_data_dict [⟨"hub1", .absolute "o1"⟩]
              ProjAcc.initial).stats_output_nb_rows
            (projectHubs c2P acc.source_data_dict [⟨"hub1", .absolute "o1"⟩]
              ProjAcc.initial).stats_output_nb_columns :=
  databaseProjector_stats_alignment c2P c2Fs [⟨"hub1", .absolute "r1"⟩]
    [⟨"hub1", .absolute "o1"⟩] c2Df (by rfl)

/-- The persist call the save phase makes for one projected entry. -/
def saveCallOf (kv : String × DataSetInfo) : SaveCall :=
  ⟨kv.2.hub_handle.hub_root ++ "/" ++ kv.1, kv.2.sheet, kv.2.data_df⟩

theorem savePhase_complete (P : DataBaseProjector) :
    ∀ projected kv, kv ∈ projected →
      (kv.2.data_df.rows.length ≠ 0 ∨ P.must_save_even_if_empty kv.1 = true) →
      saveCallOf kv ∈ savePhase P projected := by
  intro projected
  induction projected with
  | nil => intro kv h; cases h
  | cons head rest ih =>
      intro kv hkv hcond
      cases head with
      | mk u info =>
          simp only [savePhase]
          by_cases hskip : info.data_df.rows.length = 0
              ∧ ¬ P.must_save_even_if_empty u = true
          · rw [if_pos hskip]
            cases List.mem_cons.mp hkv with
            | inl heq =>
                subst heq
                rcases hcond with h | h
                · exact absurd hskip.1 h
                · exact absurd h hskip.2
            | inr hmem => exact ih kv hmem hcond
          · rw [if_neg hskip]
            cases List.mem_cons.mp hkv with
            | inl heq =>
                subst heq
                exact List.mem_cons_self _ _
            | inr hmem => exact List.mem_cons_of_mem _ (ih kv hmem hcond)

theorem savePhase_sound (P : DataBaseProjector) :
    ∀ projected call, call ∈ savePhase P projected →
      ∃ kv, kv ∈ projected ∧ call = saveCallOf kv
        ∧ (kv.2.data_df.rows.length ≠ 0 ∨ P.must_save_even_if_empty kv.1 = true) := by
  intro projected
  induction projected with
  | nil => intro call h; cases h
  | cons head rest ih =>
      intro call hcall
      cases head with
      | mk u info =>
          simp only [savePhase] at hcall
          by_cases hskip : info.data_df.rows.length = 0
              ∧ ¬ P.must_save_even_if_empty u = true
          · rw [if_pos hskip] at hcall
            obtain ⟨kv, hkv, hc⟩ := ih call hcall
            exact ⟨kv, List.mem_cons_of_mem _ hkv, hc⟩
          · rw [if_neg hskip] at hcall
            cases List.mem_cons.mp hcall with
            | inl heq =>
                refine ⟨(u, info), List.mem_cons_self _ _, heq, ?_⟩
                by_cases hz : info.data_df.rows.length = 0
                · right
                  by_contra hms
                  exact hskip ⟨hz, hms⟩
                · left; exact hz
            | inr hmem =>
                obtain ⟨kv, hkv, hc⟩ := ih call hmem
                exact ⟨kv, List.mem_cons_of_mem _ hkv, hc⟩

/-- C4: in the save phase of `project`, a projected dataset is persisted
exactly according to the empty-output suppression rule: every entry with at
least one row (or for which `must_save_even_if_empty` is true) produces a
persist call to `hub_handle.hub_root() + "/" + relative_url` under the
remembered sheet, every persist call made comes from such an entry (so a
zero-row dataset with `must_save_even_if_empty` false is never persisted),
the default `must_save_even_if_empty` is constantly false, and the saves of
a `project` run are exactly the save phase applied to the projected
dictionary. -/
theorem databaseProjector_save_phase_spec
    (P : DataBaseProjector) (projected : List (String × DataSetInfo)) :
    (∀ kv ∈ projected,
        (kv.2.data_df.rows.length ≠ 0 ∨ P.must_save_even_if_empty kv.1 = true) →
        saveCallOf kv ∈ savePhase P projected)
    ∧ (∀ call ∈ savePhase P projected,
        ∃ kv, kv ∈ projected ∧ call = saveCallOf kv
          ∧ (kv.2.data_df.rows.length ≠ 0 ∨ P.must_save_even_if_empty kv.1 = true))
    ∧ (∀ u, DataBaseProjector.must_save_even_if_empty_default u = false)
    ∧ (∀ fs input_hubs output_hubs acc, loadPhase P fs input_hubs = .ok acc →
        (P.project fs input_hubs output_hubs).saves
          = savePhase P (projectHubs P acc.source_data_dict output_hubs
              ProjAcc.initial).projected_data_dict) := by
  refine ⟨fun kv hkv hc => savePhase_complete P projected kv hkv hc,
    fun call hcall => savePhase_sound P projected call hcall,
    fun _ => rfl, ?_⟩
  intro fs input_hubs output_hubs acc hload
  unfold DataBaseProjector.project
  rw [hload]
  simp only
  split <;> rfl

/-- Projected entry with rows, used to exercise the save-phase theorem. -/
def c4InfoA : DataSetInfo :=
  ⟨"hub1", .absolute "o1", "Sheet1", ⟨["a"], [⟨0, [some "x"]⟩]⟩⟩

/-- Projected entry with zero rows (columns kept), same run. -/
def c4InfoB : DataSetInfo := ⟨"hub1", .absolute "o1", "Sheet1", ⟨["a"], []⟩⟩

/-- The projected dictionary of the concrete save-phase run. -/
def c4List : List (String × DataSetInfo) := [("a.xlsx", c4InfoA), ("b.xlsx", c4InfoB)]

/-- Projector with the default `must_save_even_if_empty`. -/
def c4P : DataBaseProjector :=
  ⟨[], 5, ⟨[]⟩, DataBaseProjector.must_save_even_if_empty_default⟩

theorem databaseProjector_save_phase_spec_witness :
    saveCallOf ("a.xlsx", c4InfoA) ∈ savePhase c4P c4List
    ∧ DataBaseProjector.must_save_even_if_empty_default "b.xlsx" = false :=
  ⟨(databaseProjector_save_phase_spec c4P c4List).1 ("a.xlsx", c4InfoA)
      (by decide) (Or.inl (by decide)),
    (databaseProjector_save_phase_spec c4P c4List).2.2.1 "b.xlsx"⟩

theorem collectFragments_all_none (fs : FileSystem) (url : String) :
    ∀ sps, (∀ sp ∈ sps,
        DataAccessor.retrieve fs url (some sp) [] false = .ok none) →
      collectFragments fs url sps = .ok [] := by
  intro sps
  induction sps with
  | nil => intro _; rfl
  | cons sp rest ih =>
      intro h
      simp only [collectFragments]
      rw [h sp (List.mem_cons_self _ _)]
      exact ih (fun s hs => h s (List.mem_cons_of_mem _ hs))

/-- C9: when the first dataset in scope has its full url present in the
first input hub but every subpath retrieval returns `None` (for example,
the workbook has none of the subpath-named worksheets), the load phase
calls `pandas.concat` on an empty fragment list, so `project` raises that
exception for the dataset's full url instead of treating the dataset as
skipped for that hub. -/
theorem databaseProjector_raises_on_all_none_subpaths
    (P : DataBaseProjector) (fs : FileSystem) (hub : SingleRootDataHub)
    (d : DataSetIdentity) (rest : List DataSetIdentity)
    (hubs_rest outs : List SingleRootDataHub)
    (hscope : P.datasets_in_scope = d :: rest)
    (hex : fs.exists_at (hub.hub_root ++ "/" ++ d.path_within_hub) = true)
    (hnone : ∀ sp ∈ d.subpaths,
        DataAccessor.retrieve fs (hub.hub_root ++ "/" ++ d.path_within_hub)
          (some sp) [] false = .ok none) :
    (P.project fs (hub :: hubs_rest) outs).result
      = .error (.concatEmpty (hub.hub_root ++ "/" ++ d.path_within_hub)) := by
  have hcollect := collectFragments_all_none fs
    (hub.hub_root ++ "/" ++ d.path_within_hub) d.subpaths hnone
  have hone : loadOneDataset fs hub d LoadAcc.initial []
      = .error (.concatEmpty (hub.hub_root ++ "/" ++ d.path_within_hub)) := by
    simp only [loadOneDataset, hex, hcollect]
    rfl
  unfold DataBaseProjector.project loadPhase loadHubs
  rw [hscope]
  simp only [loadDatasets, hone]

/-- Workbook holding only a worksheet named `Other`, so that the subpaths
`A` and `B` of the dataset in scope all retrieve `None`. -/
def c9Fs : FileSystem :=
  ⟨[("r1/data.xlsx", .excelFile [("Other", ⟨["a"], [⟨0, [some "x"]⟩]⟩)])]⟩

/-- Dataset split (on paper) across worksheets `A` and `B`. -/
def c9D : DataSetIdentity := ⟨"d", "data.xlsx", ["A", "B"]⟩

/-- Projector whose scope is just that dataset. -/
def c9P : DataBaseProjector :=
  ⟨[c9D], 5, ⟨[]⟩, DataBaseProjector.must_save_even_if_empty_default⟩

theorem databaseProjector_raises_on_all_none_subpaths_witness :
    (c9P.project c9Fs [⟨"hub1", .absolute "r1"⟩] []).result
      = .error (.concatEmpty ((⟨"hub1", .absolute "r1"⟩ : SingleRootDataHub).hub_root
          ++ "/" ++ c9D.path_within_hub)) :=
  databaseProjector_raises_on_all_none_subpaths c9P c9Fs ⟨"hub1", .absolute "r1"⟩
    c9D [] [] [] rfl (by rfl)
    (by
      intro sp hsp
      simp only [c9D] at hsp
      fin_cases hsp <;> rfl)

theorem mem_foldl_inter (u : String) :
    ∀ (L : List (String × List String)) (s : List String),
      u ∈ L.foldl (fun s kv => s.filter (fun x => kv.2.contains x)) s
        ↔ u ∈ s ∧ ∀ kv ∈ L, u ∈ kv.2 := by
  intro L
  induction L with
  | nil => intro s; simp
  | cons kv L ih =>
      intro s
      rw [List.foldl_cons, ih]
      simp only [List.mem_filter, List.contains, List.elem_eq_mem,
        decide_eq_true_eq, List.mem_cons, forall_eq_or_imp, and_assoc]

/-- The three dataset identities of the skip-reconciliation scenarios. -/
def c1Scope : List DataSetIdentity :=
  [⟨"X", "X.xlsx", ["Sheet1"]⟩, ⟨"Y", "Y.xlsx", ["Sheet1"]⟩,
    ⟨"Z", "Z.xlsx", ["Sheet1"]⟩]

/-- Projector with the three datasets in scope. -/
def c1P : DataBaseProjector :=
  ⟨c1Scope, 5, ⟨[]⟩, DataBaseProjector.must_save_even_if_empty_default⟩

/-- First input hub, rooted at `r1`. -/
def c1H1 : SingleRootDataHub := ⟨"hub1", .absolute "r1"⟩

/-- Second input hub, rooted at `r2`. -/
def c1H2 : SingleRootDataHub := ⟨"hub2", .absolute "r2"⟩

/-- A one-row workbook with a `Sheet1` worksheet. -/
def c1Wb : FileContent := .excelFile [("Sheet1", ⟨["a"], [⟨0, [some "x"]⟩]⟩)]

/-- Counterexample file system: hub1 holds X and Y, hub2 holds X; Z is
missing from both hubs, yet 3 hub-dataset loads happen for the 3 datasets
in scope, so the reconciliation guard `nb_loaded < nb_in_scope` is false. -/
def c1FsGuard : FileSystem :=
  ⟨[("r1/X.xlsx", c1Wb), ("r1/Y.xlsx", c1Wb), ("r2/X.xlsx", c1Wb)]⟩

/-- C1 counterexample: a run of `project` in which dataset Z is missing
from every input hub (its full url exists in neither hub root) and yet the
skipped-by-all-hubs report is empty, because the intersection is only
computed when fewer hub-dataset loads than datasets in scope occurred —
here X was loaded from both hubs, so `nb_loaded = 3 = nb_in_scope`. This
refutes the claim that the intersection is computed and reported on every
run (in particular that a dataset missing from both hubs always appears in
the report). -/
theorem skipped_report_guard_counterexample :
    (c1P.project c1FsGuard [c1H1, c1H2] []).skippedReport = []
    ∧ c1FsGuard.exists_at (c1H1.hub_root ++ "/" ++ "Z.xlsx") = false
    ∧ c1FsGuard.exists_at (c1H2.hub_root ++ "/" ++ "Z.xlsx") = false
    ∧ (⟨"Z", "Z.xlsx", ["Sheet1"]⟩ : DataSetIdentity) ∈ c1P.datasets_in_scope := by
  refine ⟨by rfl, by rfl, by rfl, by decide⟩

/-- Scenario-A file system: hub1 misses only X, hub2 misses only Y. -/
def c1FsA : FileSystem :=
  ⟨[("r1/Y.xlsx", c1Wb), ("r1/Z.xlsx", c1Wb), ("r2/X.xlsx", c1Wb),
    ("r2/Z.xlsx", c1Wb)]⟩

/-- Scenario-B file system: hub1 holds only Y (missing X and Z), hub2
holds only X (missing Y and Z). -/
def c1FsB : FileSystem := ⟨[("r1/Y.xlsx", c1Wb), ("r2/X.xlsx", c1Wb)]⟩

/-- C1 amended: the skipped-by-all-hubs set is computed and reported only
when the number of hub-dataset loads is smaller than the number of datasets
in scope; under that guard a url is reported exactly when it is in scope
and in every hub's skipped set (so datasets skipped by only some hubs are
never reported). With the guard active the spec's scenarios hold: hub1
missing X and Z and hub2 missing Y and Z reports exactly Z; hub1 missing
only X and hub2 missing only Y reports nothing. -/
theorem skipped_report_amended :
    (∀ nb_in_scope acc u,
        u ∈ mkSkippedReport nb_in_scope acc
          ↔ acc.nb_loaded < nb_in_scope ∧ u ∈ acc.all_dataset_rel_urls_s
              ∧ ∀ kv ∈ acc.skipped_datasets, u ∈ kv.2)
    ∧ (c1P.project c1FsA [c1H1, c1H2] []).skippedReport = []
    ∧ (c1P.project c1FsB [c1H1, c1H2] []).skippedReport = ["Z.xlsx"] := by
  refine ⟨?_, by rfl, by rfl⟩
  intro nb_in_scope acc u
  unfold mkSkippedReport
  by_cases hguard : acc.nb_loaded < nb_in_scope
  · rw [if_pos hguard]
    rw [mem_foldl_inter]
    simp [hguard]
  · rw [if_neg hguard]
    simp [hguard]

theorem dictInsert_keys {α : Type} (d : List (String × α)) (k : String) (v : α) :
    (dictInsert d k v).map Prod.fst = d.map Prod.fst
    ∨ ((dictInsert d k v).map Prod.fst = d.map Prod.fst ++ [k]
        ∧ k ∉ d.map Prod.fst) := by
  unfold dictInsert
  by_cases h : d.any (fun kv => kv.1 == k) = true
  · left
    rw [if_pos h, List.map_map]
    apply List.map_congr_left
    intro kv _
    by_cases hk : kv.1 == k
    · simp only [Function.comp_apply, if_pos hk]
      exact (eq_of_beq hk).symm
    · simp only [Function.comp_apply, if_neg hk]
  · right
    rw [if_neg h]
    constructor
    · simp
    · intro hmem
      apply h
      rw [List.any_eq_true]
      obtain ⟨kv, hkv, hfst⟩ := List.mem_map.mp hmem
      exact ⟨kv, hkv, by simp [hfst]⟩

theorem dictInsert_keys_nodup {α : Type} (d : List (String × α)) (k : String) (v : α)
    (h : (d.map Prod.fst).Nodup) : ((dictInsert d k v).map Prod.fst).Nodup := by
  rcases dictInsert_keys d k v with heq | ⟨heq, hnot⟩
  · rw [heq]; exact h
  · rw [heq]
    simp [List.nodup_append, h, hnot]

theorem dictInsert_keys_mono {α : Type} (d : List (String × α)) (k : String) (v : α)
    (x : String) (h : x ∈ d.map Prod.fst) : x ∈ (dictInsert d k v).map Prod.fst := by
  rcases dictInsert_keys d k v with heq | ⟨heq, _⟩
  · rw [heq]; exact h
  · rw [heq]; exact List.mem_append_left _ h

theorem dictInsert_key_mem {α : Type} (d : List (String × α)) (k : String) (v : α) :
    k ∈ (dictInsert d k v).map Prod.fst := by
  unfold dictInsert
  by_cases h : d.any (fun kv => kv.1 == k) = true
  · rw [if_pos h]
    obtain ⟨kv, hkv, hbeq⟩ := List.any_eq_true.mp h
    refine List.mem_map.mpr ⟨(k, v), ?_, rfl⟩
    refine List.mem_map.mpr ⟨kv, hkv, ?_⟩
    simp [hbeq]
  · rw [if_neg h]
    simp

theorem assoc_entry_unique {α : Type} :
    ∀ (l : List (String × α)) (u : String) (a b : α),
      (l.map Prod.fst).Nodup → (u, a) ∈ l → (u, b) ∈ l → a = b := by
  intro l
  induction l with
  | nil => intro u a b _ ha; cases ha
  | cons kv rest ih =>
      intro u a b hnd ha hb
      have hnd2 := hnd
      rw [List.map_cons, List.nodup_cons] at hnd2
      cases List.mem_cons.mp ha with
      | inl hah =>
          cases List.mem_cons.mp hb with
          | inl hbh => rw [← hah] at hbh; exact (Prod.mk.injEq _ _ _ _ ▸ hbh).2.symm
          | inr hbt =>
              exfalso
              apply hnd2.1
              rw [← hah]
              exact List.mem_map.mpr ⟨(u, b), hbt, rfl⟩
      | inr hat =>
          cases List.mem_cons.mp hb with
          | inl hbh =>
              exfalso
              apply hnd2.1
              rw [← hbh]
              exact List.mem_map.mpr ⟨(u, a), hat, rfl⟩
          | inr hbt => exact ih u a b hnd2.2 hat hbt

theorem loadOneDataset_ok (fs : FileSystem) (hub : SingleRootDataHub)
    (d : DataSetIdentity) (acc : LoadAcc) (sk : List String)
    (acc2 : LoadAcc) (sk2 : List String)
    (h : loadOneDataset fs hub d acc sk = .ok (acc2, sk2)) :
    (acc2.stats_input_relative_paths = acc.stats_input_relative_paths
        ∧ acc2.source_data_dict = acc.source_data_dict)
    ∨ (acc2.stats_input_relative_paths
          = acc.stats_input_relative_paths ++ [d.path_within_hub]
        ∧ ∃ info, acc2.source_data_dict
            = dictInsert acc.source_data_dict d.path_within_hub info) := by
  simp only [loadOneDataset] at h
  split at h
  · simp only [Except.ok.injEq, Prod.mk.injEq] at h
    left
    rw [← h.1]
    exact ⟨rfl, rfl⟩
  · split at h
    · exact absurd h (by simp)
    · split at h
      · exact absurd h (by simp)
      · simp only [Except.ok.injEq, Prod.mk.injEq] at h
        right
        rw [← h.1]
        exact ⟨rfl, _, rfl⟩

theorem loadOneDataset_ok_exists (fs : FileSystem) (hub : SingleRootDataHub)
    (d : DataSetIdentity) (acc : LoadAcc) (sk : List String)
    (acc2 : LoadAcc) (sk2 : List String)
    (hex : fs.exists_at (hub.hub_root ++ "/" ++ d.path_within_hub) = true)
    (h : loadOneDataset fs hub d acc sk = .ok (acc2, sk2)) :
    acc2.stats_input_relative_paths
        = acc.stats_input_relative_paths ++ [d.path_within_hub]
    ∧ ∃ info, acc2.source_data_dict
        = dictInsert acc.source_data_dict d.path_within_hub info := by
  simp only [loadOneDataset, hex] at h
  split at h
  · rename_i hc
    exact Bool.noConfusion hc
  · split at h
    · exact absurd h (by simp)
    · split at h
      · exact absurd h (by simp)
      · simp only [Except.ok.injEq, Prod.mk.injEq] at h
        rw [← h.1]
        exact ⟨rfl, _, rfl⟩

theorem loadDatasets_facts (fs : FileSystem) (hub : SingleRootDataHub) :
    ∀ (scope : List DataSetIdentity) (acc : LoadAcc) (sk : List String)
      (acc2 : LoadAcc) (sk2 : List String),
      loadDatasets fs hub scope acc sk = .ok (acc2, sk2) →
      (∃ l, acc2.stats_input_relative_paths = acc.stats_input_relative_paths ++ l)
      ∧ (∀ x, x ∈ acc.source_data_dict.map Prod.fst →
          x ∈ acc2.source_data_dict.map Prod.fst)
      ∧ ((acc.source_data_dict.map Prod.fst).Nodup →
          (acc2.source_data_dict.map Prod.fst).Nodup) := by
  intro scope
  induction scope with
  | nil =>
      intro acc sk acc2 sk2 h
      simp only [loadDatasets, Except.ok.injEq, Prod.mk.injEq] at h
      rw [← h.1]
      exact ⟨⟨[], by simp⟩, fun x hx => hx, fun hx => hx⟩
  | cons d rest ih =>
      intro acc sk acc2 sk2 h
      simp only [loadDatasets] at h
      cases hstep : loadOneDataset fs hub d acc sk with
      | error e => rw [hstep] at h; exact absurd h (by simp)
      | ok p =>
          obtain ⟨a1, s1⟩ := p
          rw [hstep] at h
          obtain ⟨⟨l, hl⟩, hmono, hnd⟩ := ih a1 s1 acc2 sk2 h
          rcases loadOneDataset_ok fs hub d acc sk a1 s1 hstep with
            ⟨hstats, hdict⟩ | ⟨hstats, info, hdict⟩
          · refine ⟨⟨l, by rw [hl, hstats]⟩, ?_, ?_⟩
            · intro x hx; exact hmono x (hdict ▸ hx)
            · intro hx; exact hnd (hdict ▸ hx)
          · refine ⟨⟨[d.path_within_hub] ++ l, by rw [hl, hstats, List.append_assoc]⟩, ?_, ?_⟩
            · intro x hx
              refine hmono x ?_
              rw [hdict]
              exact dictInsert_keys_mono _ _ _ x hx
            · intro hx
              refine hnd ?_
              rw [hdict]
              exact dictInsert_keys_nodup _ _ _ hx

theorem loadDatasets_count (fs : FileSystem) (hub : SingleRootDataHub) (u : String) :
    ∀ (scope : List DataSetIdentity) (acc : LoadAcc) (sk : List String)
      (acc2 : LoadAcc) (sk2 : List String) (d : DataSetIdentity),
      d ∈ scope → d.path_within_hub = u →
      fs.exists_at (hub.hub_root ++ "/" ++ u) = true →
      loadDatasets fs hub scope acc sk = .ok (acc2, sk2) →
      acc.stats_input_relative_paths.count u + 1
          ≤ acc2.stats_input_relative_paths.count u
      ∧ u ∈ acc2.source_data_dict.map Prod.fst := by
  intro scope
  induction scope with
  | nil => intro acc sk acc2 sk2 d hd; cases hd
  | cons d0 rest ih =>
      intro acc sk acc2 sk2 d hd hpath hex h
      simp only [loadDatasets] at h
      cases hstep : loadOneDataset fs hub d0 acc sk with
      | error e => rw [hstep] at h; exact absurd h (by simp)
      | ok p =>
          obtain ⟨a1, s1⟩ := p
          rw [hstep] at h
          cases List.mem_cons.mp hd with
          | inl heq =>
              subst heq
              have hone := loadOneDataset_ok_exists fs hub d acc sk a1 s1
                (by rw [hpath]; exact hex) hstep
              obtain ⟨hstats, info, hdict⟩ := hone
              obtain ⟨⟨l, hl⟩, hmono, _⟩ := loadDatasets_facts fs hub rest a1 s1 acc2 sk2 h
              constructor
              · rw [hl, hstats, hpath, List.count_append, List.count_append]
                have hone2 : ([u].count u) = 1 := by simp
                omega
              · refine hmono u ?_
                rw [hdict, ← hpath]
                exact dictInsert_key_mem _ _ _
          | inr hmem =>
              have hcount := ih a1 s1 acc2 sk2 d hmem hpath hex h
              rcases loadOneDataset_ok fs hub d0 acc sk a1 s1 hstep with
                ⟨hstats, _⟩ | ⟨hstats, _, _⟩
              · rw [← hstats]; exact hcount
              · refine ⟨?_, hcount.2⟩
                have h1 := hcount.1
                rw [hstats, List.count_append] at h1
                omega

theorem loadHubs_append (fs : FileSystem) (scope : List DataSetIdentity) :
    ∀ (xs ys : List SingleRootDataHub) (acc : LoadAcc),
      loadHubs fs scope (xs ++ ys) acc
        = match loadHubs fs scope xs acc with
          | .error e => .error e
          | .ok a => loadHubs fs scope ys a := by
  intro xs
  induction xs with
  | nil => intro ys acc; rfl
  | cons hub xs ih =>
      intro ys acc
      simp only [List.cons_append, loadHubs]
      cases hd : loadDatasets fs hub scope acc [] with
      | error e => rfl
      | ok p =>
          obtain ⟨a1, s1⟩ := p
          exact ih ys _

theorem loadHubs_facts (fs : FileSystem) (scope : List DataSetIdentity) :
    ∀ (hubs : List SingleRootDataHub) (acc acc2 : LoadAcc),
      loadHubs fs scope hubs acc = .ok acc2 →
      (∃ l, acc2.stats_input_relative_paths = acc.stats_input_relative_paths ++ l)
      ∧ (∀ x, x ∈ acc.source_data_dict.map Prod.fst →
          x ∈ acc2.source_data_dict.map Prod.fst)
      ∧ ((acc.source_data_dict.map Prod.fst).Nodup →
          (acc2.source_data_dict.map Prod.fst).Nodup) := by
  intro hubs
  induction hubs with
  | nil =>
      intro acc acc2 h
      simp only [loadHubs, Except.ok.injEq] at h
      rw [← h]
      exact ⟨⟨[], by simp⟩, fun x hx => hx, fun hx => hx⟩
  | cons hub rest ih =>
      intro acc acc2 h
      simp only [loadHubs] at h
      cases hd : loadDatasets fs hub scope acc [] with
      | error e => rw [hd] at h; exact absurd h (by simp)
      | ok p =>
          obtain ⟨a1, s1⟩ := p
          rw [hd] at h
          obtain ⟨⟨l2, hl2⟩, hmono2, hnd2⟩ := ih _ acc2 h
          obtain ⟨⟨l1, hl1⟩, hmono1, hnd1⟩ :=
            loadDatasets_facts fs hub scope acc [] a1 s1 hd
          refine ⟨⟨l1 ++ l2, ?_⟩, ?_, ?_⟩
          · rw [hl2]
            simp only
            rw [hl1, List.append_assoc]
          · intro x hx
            exact hmono2 x (hmono1 x hx)
          · intro hx
            exact hnd2 (hnd1 hx)

theorem loadHubs_count (fs : FileSystem) (scope : List DataSetIdentity) (u : String) :
    ∀ (hubs : List SingleRootDataHub) (acc acc2 : LoadAcc)
      (hub : SingleRootDataHub) (d : DataSetIdentity),
      hub ∈ hubs → d ∈ scope → d.path_within_hub = u →
      fs.exists_at (hub.hub_root ++ "/" ++ u) = true →
      loadHubs fs scope hubs acc = .ok acc2 →
      acc.stats_input_relative_paths.count u + 1
          ≤ acc2.stats_input_relative_paths.count u
      ∧ u ∈ acc2.source_data_dict.map Prod.fst := by
  intro hubs
  induction hubs with
  | nil => intro acc acc2 hub d hh; cases hh
  | cons hub0 rest ih =>
      intro acc acc2 hub d hh hd hpath hex h
      simp only [loadHubs] at h
      cases hdl : loadDatasets fs hub0 scope acc [] with
      | error e => rw [hdl] at h; exact absurd h (by simp)
      | ok p =>
          obtain ⟨a1, s1⟩ := p
          rw [hdl] at h
          cases List.mem_cons.mp hh with
          | inl heq =>
              subst heq
              have hc1 := loadDatasets_count fs hub u scope acc [] a1 s1 d hd hpath hex hdl
              obtain ⟨⟨l, hl⟩, hmono, _⟩ := loadHubs_facts fs scope rest _ acc2 h
              constructor
              · have hgrow : a1.stats_input_relative_paths.count u
                    ≤ acc2.stats_input_relative_paths.count u := by
                  rw [hl]
                  simp only
                  rw [List.count_append]
                  omega
                omega
              · exact hmono u hc1.2
          | inr hmem =>
              have hc2 := ih _ acc2 hub d hmem hd hpath hex h
              obtain ⟨⟨l, hl⟩, _, _⟩ := loadDatasets_facts fs hub0 scope acc [] a1 s1 hdl
              constructor
              · have h1 := hc2.1
                simp only at h1
                rw [hl, List.count_append] at h1
                omega
              · exact hc2.2

theorem projectDatasets_count (P : DataBaseProjector) (hub : SingleRootDataHub)
    (u : String) :
    ∀ (source : List (String × DataSetInfo)) (acc : ProjAcc),
      (projectDatasets P hub source acc).stats_output_relative_paths.count u
        = acc.stats_output_relative_paths.count u
          + ((source.filter (fun kv => decide (hub.name = kv.2.hub_name))).map
              Prod.fst).count u := by
  intro source
  induction source with
  | nil => intro acc; simp [projectDatasets]
  | cons kv rest ih =>
      intro acc
      obtain ⟨k, info⟩ := kv
      by_cases hn : hub.name = info.hub_name
      · have hskip : ¬ hub.name ≠ info.hub_name := by simp [hn]
        simp only [projectDatasets, if_neg hskip]
        rw [ih]
        simp [hn, List.filter_cons, List.count_cons, List.count_append]
        omega
      · simp only [projectDatasets, if_pos hn]
        rw [ih]
        simp [hn, List.filter_cons]

theorem projectHubs_count (P : DataBaseProjector)
    (source : List (String × DataSetInfo)) (u : String) :
    ∀ (outs : List SingleRootDataHub) (acc : ProjAcc),
      (projectHubs P source outs acc).stats_output_relative_paths.count u
        = acc.stats_output_relative_paths.count u
          + (outs.map (fun h =>
              ((source.filter (fun kv => decide (h.name = kv.2.hub_name))).map
                Prod.fst).count u)).sum := by
  intro outs
  induction outs with
  | nil => intro acc; simp [projectHubs]
  | cons hub rest ih =>
      intro acc
      simp only [projectHubs]
      rw [ih, projectDatasets_count]
      simp [List.sum_cons]
      omega

theorem filter_keys_count_le_one (source : List (String × DataSetInfo))
    (g : String × DataSetInfo → Bool) (u : String)
    (h : (source.map Prod.fst).Nodup) :
    ((source.filter g).map Prod.fst).count u ≤ 1 := by
  have hsub : List.Sublist ((source.filter g).map Prod.fst) (source.map Prod.fst) :=
    (List.filter_sublist source).map Prod.fst
  calc ((source.filter g).map Prod.fst).count u
      ≤ (source.map Prod.fst).count u := hsub.count_le u
    _ ≤ 1 := List.nodup_iff_count_le_one.mp h u

theorem filter_keys_count_zero (source : List (String × DataSetInfo))
    (n : String) (u : String)
    (hmis : ∀ info, (u, info) ∈ source → ¬ n = info.hub_name) :
    ((source.filter (fun kv => decide (n = kv.2.hub_name))).map Prod.fst).count u
      = 0 := by
  rw [List.count_eq_zero]
  intro hmem
  obtain ⟨kv, hkvf, hfst⟩ := List.mem_map.mp hmem
  obtain ⟨hkv_src, hg⟩ := List.mem_filter.mp hkvf
  obtain ⟨k, info⟩ := kv
  simp only at hfst
  subst hfst
  exact hmis info hkv_src (of_decide_eq_true hg)

theorem filter_keys_count_pos (source : List (String × DataSetInfo))
    (n : String) (u : String)
    (h : ((source.filter (fun kv => decide (n = kv.2.hub_name))).map Prod.fst).count u
        ≠ 0) :
    ∃ info, (u, info) ∈ source ∧ n = info.hub_name := by
  have hmem : u ∈ (source.filter (fun kv => decide (n = kv.2.hub_name))).map Prod.fst := by
    by_contra hnot
    exact h (List.count_eq_zero.mpr hnot)
  obtain ⟨kv, hkvf, hfst⟩ := List.mem_map.mp hmem
  obtain ⟨hkv_src, hg⟩ := List.mem_filter.mp hkvf
  obtain ⟨k, info⟩ := kv
  simp only at hfst
  subst hfst
  exact ⟨info, hkv_src, of_decide_eq_true hg⟩

theorem hub_terms_sum_le_one (source : List (String × DataSetInfo))
    (u : String) (info0 : DataSetInfo)
    (hsrc : (source.map Prod.fst).Nodup) (hentry : (u, info0) ∈ source) :
    ∀ outs : List SingleRootDataHub,
      (outs.map (fun h => h.name)).Nodup →
      (outs.map (fun h =>
          ((source.filter (fun kv => decide (h.name = kv.2.hub_name))).map
            Prod.fst).count u)).sum ≤ 1 := by
  intro outs
  induction outs with
  | nil => intro _; simp
  | cons hub rest ih =>
      intro hnames
      rw [List.map_cons, List.nodup_cons] at hnames
      rw [List.map_cons, List.sum_cons]
      by_cases hz : ((source.filter
          (fun kv => decide (hub.name = kv.2.hub_name))).map Prod.fst).count u = 0
      · rw [hz]
        simpa using ih hnames.2
      · obtain ⟨info1, hinfo1, hname1⟩ := filter_keys_count_pos source hub.name u hz
        have hinfo10 : info1 = info0 := assoc_entry_unique source u info1 info0 hsrc hinfo1 hentry
        subst hinfo10
        have hrest : (rest.map (fun h =>
            ((source.filter (fun kv => decide (h.name = kv.2.hub_name))).map
              Prod.fst).count u)).sum = 0 := by
          apply List.sum_eq_zero
          intro x hx
          obtain ⟨h2, hh2, hxeq⟩ := List.mem_map.mp hx
          rw [← hxeq]
          apply filter_keys_count_zero
          intro info2 hinfo2 hname2
          have hinfo21 : info2 = info1 :=
            assoc_entry_unique source u info2 info1 hsrc hinfo2 hinfo1
          apply hnames.1
          refine List.mem_map.mpr ⟨h2, hh2, ?_⟩
          rw [hname2, hinfo21, ← hname1]
        rw [hrest]
        have hle := filter_keys_count_le_one source
          (fun kv => decide (hub.name = kv.2.hub_name)) u hsrc
        omega

/-- C10: when a dataset identity in scope is present (at its relative url)
in more than one input hub (here: in hub `h1` and in a later hub `h2`),
the load loop appends the relative url to the input statistics once per
holding hub while `source_data_dict` keeps a single entry for it, so —
provided the load phase completes and the output manifest's hub names are
unique, as the data model requires — the output statistics list the url at
most once, the final alignment assertion compares different lists, and
`project` raises `AssertionError` instead of returning a statistics
table. -/
theorem databaseProjector_duplicate_presence_asserts
    (P : DataBaseProjector) (fs : FileSystem)
    (pre rest : List SingleRootDataHub) (h1 h2 : SingleRootDataHub)
    (outs : List SingleRootDataHub) (d : DataSetIdentity) (acc : LoadAcc)
    (hh2 : h2 ∈ rest)
    (hscope : d ∈ P.datasets_in_scope)
    (hex1 : fs.exists_at (h1.hub_root ++ "/" ++ d.path_within_hub) = true)
    (hex2 : fs.exists_at (h2.hub_root ++ "/" ++ d.path_within_hub) = true)
    (hload : loadPhase P fs (pre ++ h1 :: rest) = .ok acc)
    (hnames : (outs.map (fun h => h.name)).Nodup) :
    (P.project fs (pre ++ h1 :: rest) outs).result = .error .assertionError := by
  have hl0 := hload
  unfold loadPhase at hload
  rw [loadHubs_append] at hload
  cases hpre : loadHubs fs P.datasets_in_scope pre LoadAcc.initial with
  | error e => rw [hpre] at hload; exact absurd hload (by simp)
  | ok a0 =>
      rw [hpre] at hload
      simp only [loadHubs] at hload
      cases hd1 : loadDatasets fs h1 P.datasets_in_scope a0 [] with
      | error e => rw [hd1] at hload; exact absurd hload (by simp)
      | ok p =>
          obtain ⟨a1, s1⟩ := p
          rw [hd1] at hload
          have hc1 := loadDatasets_count fs h1 d.path_within_hub
            P.datasets_in_scope a0 [] a1 s1 d hscope rfl hex1 hd1
          have hc2 := loadHubs_count fs P.datasets_in_scope d.path_within_hub
            rest _ acc h2 d hh2 hscope rfl hex2 hload
          have hc2s : a1.stats_input_relative_paths.count d.path_within_hub + 1
              ≤ acc.stats_input_relative_paths.count d.path_within_hub := hc2.1
          have hcount_in : 2 ≤ acc.stats_input_relative_paths.count d.path_within_hub := by
            have h1s := hc1.1
            omega
          have hnd_init : ((LoadAcc.initial.source_data_dict).map Prod.fst).Nodup := by
            simp [LoadAcc.initial]
          have hnd_a0 := (loadHubs_facts fs P.datasets_in_scope pre
            LoadAcc.initial a0 hpre).2.2 hnd_init
          have hnd_a1 := (loadDatasets_facts fs h1 P.datasets_in_scope
            a0 [] a1 s1 hd1).2.2 hnd_a0
          have hnd_acc := (loadHubs_facts fs P.datasets_in_scope rest
            _ acc hload).2.2 hnd_a1
          obtain ⟨kv, hkv, hfst⟩ := List.mem_map.mp hc2.2
          obtain ⟨k, info⟩ := kv
          simp only at hfst
          subst hfst
          have hsum := hub_terms_sum_le_one acc.source_data_dict d.path_within_hub
            info hnd_acc hkv outs hnames
          have hout := projectHubs_count P acc.source_data_dict d.path_within_hub
            outs ProjAcc.initial
          have hcount_out : (projectHubs P acc.source_data_dict outs
              ProjAcc.initial).stats_output_relative_paths.count d.path_within_hub
              ≤ 1 := by
            rw [hout]
            have hz : (ProjAcc.initial.stats_output_relative_paths).count
                d.path_within_hub = 0 := by simp [ProjAcc.initial]
            omega
          have hne : ¬ (acc.stats_input_relative_paths
              = (projectHubs P acc.source_data_dict outs
                  ProjAcc.initial).stats_output_relative_paths) := by
            intro heq
            have hcc := congrArg (fun l => l.count d.path_within_hub) heq
            simp only at hcc
            omega
          unfold DataBaseProjector.project
          rw [hl0]
          simp only
          rw [if_neg hne]

/-- Dataset present in both input hubs of the duplicate-presence run. -/
def c10D : DataSetIdentity := ⟨"d", "data.xlsx", ["Sheet1"]⟩

/-- Projector of the duplicate-presence run. -/
def c10P : DataBaseProjector :=
  ⟨[c10D], 5, ⟨[]⟩, DataBaseProjector.must_save_even_if_empty_default⟩

/-- File system holding the dataset in both hub roots. -/
def c10Fs : FileSystem :=
  ⟨[("r1/data.xlsx", .excelFile [("Sheet1", ⟨["a"], [⟨0, [some "x"]⟩]⟩)]),
    ("r2/data.xlsx", .excelFile [("Sheet1", ⟨["a"], [⟨0, [some "y"]⟩]⟩)])]⟩

/-- First input hub of the duplicate-presence run. -/
def c10H1 : SingleRootDataHub := ⟨"hub1", .absolute "r1"⟩

/-- Second input hub of the duplicate-presence run. -/
def c10H2 : SingleRootDataHub := ⟨"hub2", .absolute "r2"⟩

/-- Output hubs matching the two input hub names. -/
def c10Outs : List SingleRootDataHub :=
  [⟨"hub1", .absolute "o1"⟩, ⟨"hub2", .absolute "o2"⟩]

/-- The load-phase accumulator of the duplicate-presence run. -/
def c10Acc : LoadAcc :=
  match loadPhase c10P c10Fs [c10H1, c10H2] with
  | .ok a => a
  | .error _ => LoadAcc.initial

theorem databaseProjector_duplicate_presence_asserts_witness :
    (c10P.project c10Fs ([] ++ c10H1 :: [c10H2]) c10Outs).result
      = .error .assertionError :=
  databaseProjector_duplicate_presence_asserts c10P c10Fs [] [c10H2] c10H1 c10H2
    c10Outs c10D c10Acc (by decide) (by decide) (by rfl) (by rfl) (by rfl)
    (by decide)
